import Mathlib

/-
Verification development for the auto-form repository.

Part 1 embeds the searchable multi-select widget
(`src/components/ui/multiple-selector.tsx`, concatenated into
`enum-multi-input.tsx` in the provided sources): its `Option` record,
the candidate-list computation `removePickedOption` / `selectables`,
the selection handlers (`onSelect` of a listed candidate and of the
creatable candidate, `handleUnselect`, `handleKeyDown`, the clear-all
button) and the async-search body `doSearch`.

Part 2 embeds the Schema Walker (`AutoFormObject` in the unnamed source
file): the zod schema-node union, wrapper unwrapping, the in-place
numeric-coercion step `handleIfZodNumber`, `isZodPrimitiveArray`, and
the per-key emission of field descriptors.  Helpers that live in files
not included in the sources (`getBaseType`, `zodToHtmlInputProps`) are
modelled from the spec and say so in their doc comments; the result of
`resolveDependencies` is universally quantified as a function from the
key name to its dependency effects.
-/

set_option autoImplicit false

/-- Multi-select option record, `Option` in the source
(`{ value, label, disable?, fixed? }`); named `MultiSelect.Option` here
because `Option` is taken by Lean's core type.  The absent optional
flags of the source are `false`. -/
structure MultiSelect.Option where
  value : String
  label : String
  disable : Bool := false
  fixed : Bool := false
  deriving DecidableEq, Repr

/-- Character-list version of JavaScript `String.prototype.startsWith`. -/
def listStarts : List Char → List Char → Bool
  | [], _ => true
  | _ :: _, [] => false
  | a :: as, b :: bs => a == b && listStarts as bs

/-- Character-list version of JavaScript `String.prototype.includes`:
does `sub` occur contiguously in the second list? -/
def listHasInfix (sub : List Char) : List Char → Bool
  | [] => sub.isEmpty
  | c :: t => listStarts sub (c :: t) || listHasInfix sub t

/-- JavaScript `s.includes(sub)` on strings. -/
def jsIncludes (s sub : String) : Bool :=
  listHasInfix sub.data s.data

/-- JavaScript `s.toLowerCase()`: lower-case every character. -/
def strToLower (s : String) : String :=
  ⟨s.data.map Char.toLower⟩

/-- Candidate-list computation from the source: drop options whose value
equals (case-sensitively) a picked value, keep those whose lower-cased
value contains the lower-cased search term, and rebuild each survivor
from its value and label only. -/
def removePickedOption (options picked : List MultiSelect.Option)
    (debouncedSearchTerm : String) : List MultiSelect.Option :=
  ((options.filter
      (fun val => !(picked.any (fun p => p.value == val.value)))).filter
    (fun option =>
      jsIncludes (strToLower option.value) (strToLower debouncedSearchTerm))).map
    (fun val => { value := val.value, label := val.label })

/-- Source `isOptionsExist`: is some target value already present in the
option pool, compared case-insensitively? -/
def isOptionsExist (options targetOption : List MultiSelect.Option) : Bool :=
  options.any (fun option =>
    targetOption.any (fun target =>
      strToLower target.value == strToLower option.value))

/-- The memoised `selectables` of `MultipleSelector`: client-side
filtering uses the debounced term, but an async `onSearch` replaces the
term by the empty string so no client filtering happens. -/
def selectables (options selected : List MultiSelect.Option)
    (hasOnSearch : Bool) (debouncedSearchTerm : String) : List MultiSelect.Option :=
  removePickedOption options selected
    (if hasOnSearch then "" else debouncedSearchTerm)

/-- Observable outcome of one selection handler run: the selection state,
the query text, the arguments of the `onMaxSelected` calls made, and the
arguments of the `onChange` calls made. -/
structure SelectOutcome where
  selected : List MultiSelect.Option
  inputValue : String
  maxSelectedCalls : List Nat
  onChangeCalls : List (List MultiSelect.Option)
  deriving DecidableEq, Repr

/-- The `onSelect` handler of a listed candidate in `MultipleSelector`:
at or above `maxSelected` it only calls `onMaxSelected(selected.length)`;
otherwise it clears the query, appends the option and reports the new
selection through `onChange`. -/
def selectCandidate (selected : List MultiSelect.Option) (inputValue : String)
    (maxSelected : Nat) (option : MultiSelect.Option) : SelectOutcome :=
  if maxSelected ≤ selected.length then
    { selected := selected, inputValue := inputValue
      maxSelectedCalls := [selected.length], onChangeCalls := [] }
  else
    { selected := selected ++ [option], inputValue := ""
      maxSelectedCalls := [], onChangeCalls := [selected ++ [option]] }

/-- The `onSelect` handler of the creatable candidate (`CreatableItem`):
identical guard, with the appended option built from the item's value
string as both value and label. -/
def creatableOnSelect (selected : List MultiSelect.Option) (inputValue : String)
    (maxSelected : Nat) (v : String) : SelectOutcome :=
  if maxSelected ≤ selected.length then
    { selected := selected, inputValue := inputValue
      maxSelectedCalls := [selected.length], onChangeCalls := [] }
  else
    { selected := selected ++ [⟨v, v, false, false⟩], inputValue := ""
      maxSelectedCalls := [], onChangeCalls := [selected ++ [⟨v, v, false, false⟩]] }

/-- Source `handleUnselect`: keep the entries whose value differs from the
removed option's value. -/
def handleUnselect (selected : List MultiSelect.Option)
    (option : MultiSelect.Option) : List MultiSelect.Option :=
  selected.filter (fun s => s.value != option.value)

/-- Source `handleKeyDown`, restricted to its effect on the selection:
on Delete/Backspace with an empty query and a non-empty selection,
unselect the last entry unless it is fixed. -/
def handleKeyDown (key inputValue : String)
    (selected : List MultiSelect.Option) : List MultiSelect.Option :=
  if key = "Delete" ∨ key = "Backspace" then
    if inputValue = "" ∧ 0 < selected.length then
      match selected.getLast? with
      | some lastSelectOption =>
          if lastSelectOption.fixed then selected
          else handleUnselect selected lastSelectOption
      | none => selected
    else selected
  else selected

/-- The clear-all button's `onClick`: the new selection kept in state and
the argument passed to `onChange`, both computed as
`selected.filter(s => s.fixed)` exactly as in the source. -/
def clearAll (selected : List MultiSelect.Option) :
    List MultiSelect.Option × List MultiSelect.Option :=
  (selected.filter (fun s => s.fixed), selected.filter (fun s => s.fixed))

/-- State touched by the async search effect. -/
structure SearchState where
  options : List MultiSelect.Option
  isLoading : Bool
  deriving DecidableEq, Repr

/-- Source `doSearch`: set `isLoading` to true, await `onSearch`, store
`res || []` and reset `isLoading`.  The awaited call's outcome is passed
in as an `Except`: a rejection aborts the async function body right at
the `await`, so the two trailing statements never run and the state
keeps `isLoading := true`. -/
def doSearch (st : SearchState)
    (res : Except Unit (Option (List MultiSelect.Option))) : SearchState :=
  let st1 : SearchState := { st with isLoading := true }
  match res with
  | Except.error _ => st1
  | Except.ok r => { st1 with options := r.getD [], isLoading := false }

/-- Closed union of the zod schema-node kinds the walker distinguishes
(spec section 9): object, array, the three primitives, enum, the two
transparent wrappers, and a catch-all.  `zNumber` carries the mutable
`coerce` flag that `handleIfZodNumber` sets in place; `zObject`'s own
shape is passed to the walker separately, as the source does via
`getBaseSchema(schema).shape`. -/
inductive SchemaNode where
  | zObject
  | zArray (elem : SchemaNode)
  | zString
  | zNumber (coerce : Bool)
  | zBoolean
  | zEnum (values : List String)
  | zOptional (inner : SchemaNode)
  | zDefault (inner : SchemaNode)
  | zOther
  deriving DecidableEq, Repr

/-- The wrapper-stripping loop of the source
(`while ("innerType" in innerType._def ...) innerType = innerType._def.innerType`):
optional/default wrappers are the nodes whose `_def` carries an
`innerType`. -/
def unwrap : SchemaNode → SchemaNode
  | SchemaNode.zOptional inner => unwrap inner
  | SchemaNode.zDefault inner => unwrap inner
  | x => x

/-- Does the node's `_def` carry an `innerType`, i.e. is it an
optional/default wrapper? -/
def isWrapper : SchemaNode → Bool
  | SchemaNode.zOptional _ => true
  | SchemaNode.zDefault _ => true
  | _ => false

/-- The zod `_def.typeName` tag of a node. -/
def typeName : SchemaNode → String
  | SchemaNode.zObject => "ZodObject"
  | SchemaNode.zArray _ => "ZodArray"
  | SchemaNode.zString => "ZodString"
  | SchemaNode.zNumber _ => "ZodNumber"
  | SchemaNode.zBoolean => "ZodBoolean"
  | SchemaNode.zEnum _ => "ZodEnum"
  | SchemaNode.zOptional _ => "ZodOptional"
  | SchemaNode.zDefault _ => "ZodDefault"
  | SchemaNode.zOther => "ZodOther"

/-- Modelled from the spec: `getBaseType` (imported from `../utils`,
a file not among the provided sources) resolves a node's type tag after
stripping optional/default wrappers (spec section 4.1 step 1 and the
glossary entry for base type). -/
def getBaseType (item : SchemaNode) : String :=
  typeName (unwrap item)

/-- Source `handleIfZodNumber`: set `coerce` on the node when it is a
`ZodNumber`, or on its `innerType` when the node is a one-level wrapper
around a `ZodNumber`; every other node is returned untouched.  The
returned node is the post-state of the shape's node, since the source
mutates `_def` in place. -/
def handleIfZodNumber : SchemaNode → SchemaNode
  | SchemaNode.zNumber _ => SchemaNode.zNumber true
  | SchemaNode.zOptional (SchemaNode.zNumber _) =>
      SchemaNode.zOptional (SchemaNode.zNumber true)
  | SchemaNode.zDefault (SchemaNode.zNumber _) =>
      SchemaNode.zDefault (SchemaNode.zNumber true)
  | x => x

/-- Is the node one of the three primitive kinds checked by
`isZodPrimitiveArray` (`ZodString`/`ZodNumber`/`ZodBoolean`)? -/
def isPrimitiveNode : SchemaNode → Bool
  | SchemaNode.zString => true
  | SchemaNode.zNumber _ => true
  | SchemaNode.zBoolean => true
  | _ => false

/-- Is the node a `ZodEnum`? -/
def isEnumNode : SchemaNode → Bool
  | SchemaNode.zEnum _ => true
  | _ => false

/-- Result record of `isZodPrimitiveArray`. -/
structure PrimArrayResult where
  isPrimitiveArray : Bool
  isEnumOfPrimitives : Bool
  innerType : SchemaNode
  deriving DecidableEq, Repr

/-- Source `isZodPrimitiveArray`: unwrap wrappers; when the result is an
array, step to its element type and classify it as primitive or enum;
otherwise both flags stay false and the unwrapped node is returned. -/
def isZodPrimitiveArray (item : SchemaNode) : PrimArrayResult :=
  match unwrap item with
  | SchemaNode.zArray t =>
      { isPrimitiveArray := isPrimitiveNode t
        isEnumOfPrimitives := isEnumNode t
        innerType := t }
  | x => { isPrimitiveArray := false, isEnumOfPrimitives := false, innerType := x }

/-- Per-key result of `resolveDependencies` (from `../dependencies`,
not among the provided sources); the walker only consumes these four
components, so the embedding quantifies over them as a function of the
key name. -/
structure DependencyResult where
  isHidden : Bool
  isDisabled : Bool
  isRequired : Bool
  overrideOptions : Option (List String)
  deriving DecidableEq, Repr

/-- The `inputProps` slice of a `FieldConfigItem` that the walker reads. -/
structure InputProps where
  required : Bool := false
  disabled : Bool := false
  creatable : Option Bool := none
  deriving DecidableEq, Repr

/-- The slice of a per-field `FieldConfigItem` the walker reads. -/
structure FieldConfigItem where
  fieldType : Option String := none
  inputProps : InputProps := {}
  deriving DecidableEq, Repr

/-- The per-path configuration map, `fieldConfig` in the source; lookup
is `fieldConfig?.[name]`. -/
def lookupFieldConfig (fieldConfig : List (String × FieldConfigItem))
    (name : String) : Option FieldConfigItem :=
  (fieldConfig.find? (fun p => p.1 == name)).map (fun p => p.2)

/-- HTML input properties derived from a schema node. -/
structure HtmlInputProps where
  required : Bool
  deriving DecidableEq, Repr

/-- Modelled from the spec: `zodToHtmlInputProps` (imported from
`../utils`, not among the provided sources) marks a field required
exactly when the schema does not wrap it in an optional (spec section
4.1 step 4, schema-required). -/
def zodToHtmlInputProps : SchemaNode → HtmlInputProps
  | SchemaNode.zOptional _ => { required := false }
  | _ => { required := true }

/-- One element of the walker's output list: the collapsible section of a
nested object, the repeatable composite `AutoFormArray`, or a leaf
`FormField` carrying the resolved field type, creatable flag,
required/disabled marks and the schema node handed to the widget. -/
inductive FieldDescriptor where
  | accordionSection (name : String) (item : SchemaNode)
  | arraySubform (name : String) (item : SchemaNode)
  | formField (name : String) (fieldType : Option String)
      (creatable : Option Bool) (isRequired : Bool) (isDisabled : Bool)
      (item : SchemaNode)
  deriving DecidableEq, Repr

/-- Field type of a `formField` descriptor, `none` for other kinds. -/
def descFieldType : FieldDescriptor → Option String
  | FieldDescriptor.formField _ ft _ _ _ _ => ft
  | _ => none

/-- Creatable flag of a `formField` descriptor, `none` for other kinds. -/
def descCreatable : FieldDescriptor → Option Bool
  | FieldDescriptor.formField _ _ cr _ _ _ => cr
  | _ => none

/-- Is the descriptor a leaf `FormField`? -/
def descIsFormField : FieldDescriptor → Bool
  | FieldDescriptor.formField _ _ _ _ _ _ => true
  | _ => false

/-- The shared `FormField` tail of the walker (source lines 164-228):
required-ness is dependency-required or schema-required or
config-required, then an `overrideOptions` dependency replaces the node
by an enum over exactly the provided list. -/
def emitFormField (dep : DependencyResult) (name : String)
    (fieldConfigItem : FieldConfigItem) (item : SchemaNode) : FieldDescriptor :=
  let zodInputProps := zodToHtmlInputProps item
  let isRequired :=
    dep.isRequired || zodInputProps.required || fieldConfigItem.inputProps.required
  let item2 :=
    match dep.overrideOptions with
    | some opts => SchemaNode.zEnum opts
    | none => item
  FieldDescriptor.formField name fieldConfigItem.fieldType
    fieldConfigItem.inputProps.creatable isRequired
    (fieldConfigItem.inputProps.disabled || dep.isDisabled) item2

/-- Everything observable about processing one key of the shape: the
emitted descriptor (`none` when the key renders nothing), the post-state
of the shape's schema node (the only in-place mutation is
`handleIfZodNumber`), and how many `fieldConfig?.[name]` lookups ran. -/
structure KeyResult where
  emitted : Option FieldDescriptor
  nodeAfter : SchemaNode
  fcLookups : Nat
  deriving DecidableEq, Repr

/-- The body of the walker's per-key `map` callback (source lines
94-228), with the source's statement order: the numeric-coercion
mutation and the base-type resolution run first, then the dependency
effects are consulted; a hidden key returns `null` right there.
Otherwise an object key emits an accordion section (one config lookup),
an array key either becomes a `selectmultiinput` `FormField` over the
element type with `creatable := !isEnumOfPrimitives` (two config
lookups; the `overrideFieldConfig ?? fieldConfig?.[name]` fallback
short-circuits) or an `AutoFormArray` (one lookup), and every other key
emits a plain `FormField` (one lookup). -/
def processKey (fieldConfig : List (String × FieldConfigItem))
    (dep : DependencyResult) (name : String) (item0 : SchemaNode) : KeyResult :=
  let item := handleIfZodNumber item0
  let zodBaseType := getBaseType item
  if dep.isHidden then
    { emitted := none, nodeAfter := item, fcLookups := 0 }
  else if zodBaseType = "ZodObject" then
    { emitted := some (FieldDescriptor.accordionSection name item)
      nodeAfter := item, fcLookups := 1 }
  else if zodBaseType = "ZodArray" then
    let r := isZodPrimitiveArray item
    if r.isPrimitiveArray || r.isEnumOfPrimitives then
      let base := (lookupFieldConfig fieldConfig name).getD {}
      let baseProps := ((lookupFieldConfig fieldConfig name).getD {}).inputProps
      let overrideFieldConfig : FieldConfigItem :=
        { base with
          fieldType := some "selectmultiinput"
          inputProps := { baseProps with creatable := some (!r.isEnumOfPrimitives) } }
      { emitted := some (emitFormField dep name overrideFieldConfig r.innerType)
        nodeAfter := item, fcLookups := 2 }
    else
      { emitted := some (FieldDescriptor.arraySubform name item)
        nodeAfter := item, fcLookups := 1 }
  else
    { emitted :=
        some (emitFormField dep name ((lookupFieldConfig fieldConfig name).getD {}) item)
      nodeAfter := item, fcLookups := 1 }

/-- The walker `AutoFormObject` over an object shape: one `map` callback
run per key in insertion order, with the hidden keys' `null` entries
dropped from the rendered children. -/
def autoFormObject (fieldConfig : List (String × FieldConfigItem))
    (depf : String → DependencyResult)
    (shape : List (String × SchemaNode)) : List FieldDescriptor :=
  shape.filterMap (fun p => (processKey fieldConfig (depf p.1) p.1 p.2).emitted)

/-- C1: selecting a candidate — listed or creatable — at or above the
`maxSelected` bound leaves the selection unchanged, makes exactly one
`onMaxSelected` call and keeps the query text; below the bound the
option is appended at the end of the selection and the query text is
cleared. -/
theorem select_bounded_by_maxSelected (sel : List MultiSelect.Option)
    (inp : String) (maxSel : Nat) (o : MultiSelect.Option) (v : String) :
    (maxSel ≤ sel.length →
      (selectCandidate sel inp maxSel o).selected = sel ∧
      (selectCandidate sel inp maxSel o).maxSelectedCalls.length = 1 ∧
      (selectCandidate sel inp maxSel o).inputValue = inp ∧
      (creatableOnSelect sel inp maxSel v).selected = sel ∧
      (creatableOnSelect sel inp maxSel v).maxSelectedCalls.length = 1 ∧
      (creatableOnSelect sel inp maxSel v).inputValue = inp) ∧
    (sel.length < maxSel →
      (selectCandidate sel inp maxSel o).selected = sel ++ [o] ∧
      (selectCandidate sel inp maxSel o).inputValue = "" ∧
      (creatableOnSelect sel inp maxSel v).selected = sel ++ [⟨v, v, false, false⟩] ∧
      (creatableOnSelect sel inp maxSel v).inputValue = "") := by
  constructor
  · intro h
    simp [selectCandidate, creatableOnSelect, if_pos h]
  · intro h
    simp [selectCandidate, creatableOnSelect, if_neg (Nat.not_le.mpr h)]

/-- Witness for C1 at concrete inputs: with one entry selected and
`maxSelected = 1` the selection stays put; with an empty selection the
candidate is appended. -/
theorem select_bounded_by_maxSelected_w :
    (selectCandidate [⟨"a", "a", false, false⟩] "q" 1 ⟨"b", "b", false, false⟩).selected
        = [⟨"a", "a", false, false⟩] ∧
    (selectCandidate [] "q" 1 ⟨"b", "b", false, false⟩).selected
        = [⟨"b", "b", false, false⟩] := by
  have h1 :=
    select_bounded_by_maxSelected [⟨"a", "a", false, false⟩] "q" 1
      ⟨"b", "b", false, false⟩ "c"
  have h2 :=
    select_bounded_by_maxSelected [] "q" 1 ⟨"b", "b", false, false⟩ "c"
  exact ⟨(h1.1 (by decide)).1, ((h2.2 (by decide)).1).trans (by decide)⟩

/-- C4: when the awaited `onSearch` promise rejects, `doSearch` never
reaches its trailing `setIsLoading(false)` — there is no `finally` — so
the widget stays stuck with `isLoading = true`. -/
theorem doSearch_rejection_leaves_loading :
    (doSearch { options := [], isLoading := false } (Except.error ())).isLoading
      = true := rfl

/-- C5: clear-all replaces the selection with exactly the fixed entries
of the old selection, in order — an order-preserving sub-sequence that
contains every fixed entry and nothing non-fixed — and `onChange`
receives that same list. -/
theorem clearAll_keeps_exactly_fixed (sel : List MultiSelect.Option) :
    (clearAll sel).1 = sel.filter (fun s => s.fixed) ∧
    (clearAll sel).1.Sublist sel ∧
    (∀ o ∈ (clearAll sel).1, o.fixed = true) ∧
    (∀ o ∈ sel, o.fixed = true → o ∈ (clearAll sel).1) ∧
    (clearAll sel).2 = (clearAll sel).1 := by
  refine ⟨rfl, List.filter_sublist sel, ?_, ?_, rfl⟩
  · intro o ho
    exact List.of_mem_filter ho
  · intro o ho hf
    exact List.mem_filter.mpr ⟨ho, hf⟩

/-- Witness for C5 on the spec's own example: clearing
`[{value := a, fixed := true}, {value := b}]` leaves
`[{value := a, fixed := true}]`. -/
theorem clearAll_keeps_exactly_fixed_w :
    (clearAll [⟨"a", "a", false, true⟩, ⟨"b", "b", false, false⟩]).1
      = [⟨"a", "a", false, true⟩] := by
  have h :=
    clearAll_keeps_exactly_fixed [⟨"a", "a", false, true⟩, ⟨"b", "b", false, false⟩]
  exact h.1.trans (by decide)

/-- C9: stripping optional/default wrappers is idempotent and its result
never carries a wrapper. -/
theorem unwrap_idempotent (x : SchemaNode) :
    unwrap (unwrap x) = unwrap x ∧ isWrapper (unwrap x) = false := by
  induction x with
  | zObject => exact ⟨rfl, rfl⟩
  | zArray elem _ => exact ⟨rfl, rfl⟩
  | zString => exact ⟨rfl, rfl⟩
  | zNumber c => exact ⟨rfl, rfl⟩
  | zBoolean => exact ⟨rfl, rfl⟩
  | zEnum vs => exact ⟨rfl, rfl⟩
  | zOptional inner ih => simpa [unwrap] using ih
  | zDefault inner ih => simpa [unwrap] using ih
  | zOther => exact ⟨rfl, rfl⟩

/-- A key whose dependency result is not hidden always emits a
descriptor: every non-hidden branch of the per-key callback returns an
element. -/
theorem processKey_some_of_not_hidden (fc : List (String × FieldConfigItem))
    (dep : DependencyResult) (n : String) (it : SchemaNode)
    (h : dep.isHidden = false) :
    ((processKey fc dep n it).emitted).isSome = true := by
  simp only [processKey]
  rw [if_neg (by simp [h])]
  split
  · rfl
  · split
    · split
      · rfl
      · rfl
    · rfl

/-- A hidden key emits nothing. -/
theorem processKey_none_of_hidden (fc : List (String × FieldConfigItem))
    (dep : DependencyResult) (n : String) (it : SchemaNode)
    (h : dep.isHidden = true) :
    (processKey fc dep n it).emitted = none := by
  simp [processKey, h]

/-- C2: over any object shape, any per-path configuration and any
dependency outcome, the walker emits exactly one field descriptor per
key that is not hidden — the hidden keys are the only ones dropped from
its output. -/
theorem autoFormObject_count_eq_unhidden (fc : List (String × FieldConfigItem))
    (depf : String → DependencyResult) (shape : List (String × SchemaNode)) :
    (autoFormObject fc depf shape).length
      = (shape.filter (fun p => !(depf p.1).isHidden)).length := by
  induction shape with
  | nil => rfl
  | cons p rest ih =>
    by_cases hp : (depf p.1).isHidden = true
    · have hn := processKey_none_of_hidden fc (depf p.1) p.1 p.2 hp
      simpa [autoFormObject, List.filterMap_cons, hn, hp] using ih
    · have hb : (depf p.1).isHidden = false := by
        revert hp
        cases (depf p.1).isHidden <;> simp
      obtain ⟨e, he⟩ := Option.isSome_iff_exists.mp
        (processKey_some_of_not_hidden fc (depf p.1) p.1 p.2 hb)
      simpa [autoFormObject, List.filterMap_cons, he, hb] using ih

/-- Counterexample to C3 as stated: the numeric-coercion mutation
(`handleIfZodNumber`, walker line 96) runs before the dependency effects
are consulted, so a hidden `ZodNumber` key's schema node is still
mutated — its `coerce` flag flips to true — even though the hide effect
fired and nothing is emitted. -/
theorem hidden_number_key_node_mutated :
    (processKey [] ⟨true, false, false, none⟩ "n" (SchemaNode.zNumber false)).emitted
        = none ∧
    (processKey [] ⟨true, false, false, none⟩ "n" (SchemaNode.zNumber false)).nodeAfter
      = SchemaNode.zNumber true ∧
    SchemaNode.zNumber true ≠ SchemaNode.zNumber false := by
  refine ⟨rfl, rfl, ?_⟩
  decide

/-- C3 amended: once the hide effect fires, the walker emits nothing and
performs no `fieldConfig` lookup for the key; the only side effect on
the schema node is the numeric-coercion mutation, which runs before the
dependency check and therefore happens for hidden keys too. -/
theorem hidden_key_skips_rest (fc : List (String × FieldConfigItem))
    (dep : DependencyResult) (n : String) (it : SchemaNode)
    (h : dep.isHidden = true) :
    (processKey fc dep n it).emitted = none ∧
    (processKey fc dep n it).fcLookups = 0 ∧
    (processKey fc dep n it).nodeAfter = handleIfZodNumber it := by
  simp [processKey, h]

/-- Witness for C3's amended statement at a concrete hidden numeric key. -/
theorem hidden_key_skips_rest_w :
    (processKey [] ⟨true, false, false, none⟩ "n" (SchemaNode.zNumber false)).emitted
        = none ∧
    (processKey [] ⟨true, false, false, none⟩ "n" (SchemaNode.zNumber false)).fcLookups
        = 0 ∧
    (processKey [] ⟨true, false, false, none⟩ "n" (SchemaNode.zNumber false)).nodeAfter
        = handleIfZodNumber (SchemaNode.zNumber false) :=
  hidden_key_skips_rest [] ⟨true, false, false, none⟩ "n" (SchemaNode.zNumber false) rfl

/-- Counterexample to C6 as stated: `handleUnselect` filters by value
equality, so when two selected entries share one value, Backspace on an
empty query removes both of them, not only the most recently selected
entry. -/
theorem backspace_duplicate_values_removes_both :
    handleKeyDown "Backspace" ""
        [⟨"a", "first", false, false⟩, ⟨"a", "second", false, false⟩] = [] ∧
    ([] : List MultiSelect.Option) ≠ [⟨"a", "first", false, false⟩] := by
  constructor
  · decide
  · decide

/-- C6 amended: for Delete/Backspace, a non-empty query leaves the
selection unchanged; on an empty query a fixed last entry makes the key
a no-op, and when the selected values are pairwise distinct (the
widget's dedup invariant) a non-fixed last entry is removed and exactly
the earlier entries remain. -/
theorem handleKeyDown_empty_query_spec (key inp : String)
    (sel : List MultiSelect.Option)
    (hk : key = "Delete" ∨ key = "Backspace") :
    (inp ≠ "" → handleKeyDown key inp sel = sel) ∧
    (∀ rest lastOpt, sel = rest ++ [lastOpt] → inp = "" →
      (lastOpt.fixed = true → handleKeyDown key inp sel = sel) ∧
      (lastOpt.fixed = false → (sel.map (fun o => o.value)).Nodup →
        handleKeyDown key inp sel = rest)) := by
  constructor
  · intro hne
    unfold handleKeyDown
    rw [if_pos hk, if_neg (fun hc => hne hc.1)]
  · intro rest lastOpt hsel hinp
    subst hsel
    subst hinp
    have hlast : (rest ++ [lastOpt]).getLast? = some lastOpt :=
      List.getLast?_concat rest
    constructor
    · intro hfix
      simp [handleKeyDown, hk, hlast, hfix]
    · intro hfix hnd
      have hvals : ∀ o ∈ rest, o.value ≠ lastOpt.value := by
        rw [List.map_append, List.nodup_append] at hnd
        intro o ho heq
        exact hnd.2.2 (List.mem_map.mpr ⟨o, ho, rfl⟩)
          (heq ▸ List.mem_singleton_self lastOpt.value)
      have hrem : handleUnselect (rest ++ [lastOpt]) lastOpt = rest := by
        unfold handleUnselect
        rw [List.filter_append]
        have h1 : rest.filter (fun s => s.value != lastOpt.value) = rest :=
          List.filter_eq_self.mpr (fun o ho => bne_iff_ne.mpr (hvals o ho))
        have h2 : [lastOpt].filter (fun s => s.value != lastOpt.value) = [] := by
          simp
        rw [h1, h2, List.append_nil]
      simp [handleKeyDown, hk, hlast, hfix, hrem]

/-- Witness for C6's amended statement: with distinct values `a`, `b`,
Backspace on an empty query removes exactly the last entry. -/
theorem handleKeyDown_empty_query_spec_w :
    handleKeyDown "Backspace" ""
        [⟨"a", "a", false, false⟩, ⟨"b", "b", false, false⟩]
      = [⟨"a", "a", false, false⟩] := by
  have h := handleKeyDown_empty_query_spec "Backspace" ""
    [⟨"a", "a", false, false⟩, ⟨"b", "b", false, false⟩] (Or.inr rfl)
  exact (h.2 [⟨"a", "a", false, false⟩] ⟨"b", "b", false, false⟩ rfl rfl).2 rfl
    (by decide)

/-- JavaScript `s.includes("")` is true for every string. -/
theorem jsIncludes_empty (s : String) : jsIncludes s "" = true := by
  have hd : ("" : String).data = [] := rfl
  unfold jsIncludes
  rw [hd]
  cases s.data with
  | nil => rfl
  | cons c t => rfl

/-- Membership in `removePickedOption`: exactly the value/label copies of
the pool options whose value is not that of any picked entry
(case-sensitively) and whose lower-cased value contains the lower-cased
term. -/
theorem mem_removePickedOption (opts picked : List MultiSelect.Option)
    (t : String) (o : MultiSelect.Option) :
    o ∈ removePickedOption opts picked t ↔
      ∃ p ∈ opts, (∀ s ∈ picked, s.value ≠ p.value) ∧
        jsIncludes (strToLower p.value) (strToLower t) = true ∧
        o = ⟨p.value, p.label, false, false⟩ := by
  unfold removePickedOption
  constructor
  · intro h
    obtain ⟨p, hpf, rfl⟩ := List.mem_map.mp h
    obtain ⟨hpf2, hinc⟩ := List.mem_filter.mp hpf
    obtain ⟨hp, hpick⟩ := List.mem_filter.mp hpf2
    refine ⟨p, hp, ?_, hinc, rfl⟩
    intro s hs heq
    have ha : picked.any (fun q => q.value == p.value) = true :=
      List.any_eq_true.mpr ⟨s, hs, beq_iff_eq.mpr heq⟩
    rw [ha] at hpick
    exact absurd hpick (by decide)
  · rintro ⟨p, hp, hpick, hinc, rfl⟩
    refine List.mem_map.mpr
      ⟨p, List.mem_filter.mpr ⟨List.mem_filter.mpr ⟨hp, ?_⟩, hinc⟩, rfl⟩
    have ha : picked.any (fun q => q.value == p.value) = false := by
      rw [List.any_eq_false]
      intro s hs
      exact fun hbeq => hpick s hs (beq_iff_eq.mp hbeq)
    rw [ha]
    rfl

/-- C7: the candidate list contains exactly the pool options whose value
equals no already-selected value (case-sensitive equality) and — only
when filtering client-side, i.e. no async search function is
configured — whose value case-insensitively contains the query text;
with an async search the client-side query filter is skipped. -/
theorem selectables_mem_iff (opts sel : List MultiSelect.Option)
    (hasOnSearch : Bool) (term : String) (o : MultiSelect.Option) :
    o ∈ selectables opts sel hasOnSearch term ↔
      ∃ p ∈ opts, (∀ s ∈ sel, s.value ≠ p.value) ∧
        (hasOnSearch = true ∨
          jsIncludes (strToLower p.value) (strToLower term) = true) ∧
        o = ⟨p.value, p.label, false, false⟩ := by
  unfold selectables
  cases hasOnSearch with
  | false =>
    rw [if_neg (by decide)]
    constructor
    · intro h
      obtain ⟨p, hp, hpick, hinc, rfl⟩ := (mem_removePickedOption opts sel term o).mp h
      exact ⟨p, hp, hpick, Or.inr hinc, rfl⟩
    · rintro ⟨p, hp, hpick, hor, rfl⟩
      refine (mem_removePickedOption opts sel term _).mpr ⟨p, hp, hpick, ?_, rfl⟩
      cases hor with
      | inl h => exact absurd h (by decide)
      | inr h => exact h
  | true =>
    rw [if_pos rfl]
    have hlow : strToLower "" = "" := rfl
    constructor
    · intro h
      obtain ⟨p, hp, hpick, _, rfl⟩ := (mem_removePickedOption opts sel "" o).mp h
      exact ⟨p, hp, hpick, Or.inl rfl, rfl⟩
    · rintro ⟨p, hp, hpick, _, rfl⟩
      refine (mem_removePickedOption opts sel "" _).mpr ⟨p, hp, hpick, ?_, rfl⟩
      rw [hlow]
      exact jsIncludes_empty (strToLower p.value)

/-- Witness for C7 on the spec's own example: with pool `x`, `y`,
selection `x`, no async search and an empty query, the `y` candidate is
offered. -/
theorem selectables_mem_iff_w :
    (⟨"y", "y", false, false⟩ : MultiSelect.Option) ∈
      selectables [⟨"x", "x", false, false⟩, ⟨"y", "y", false, false⟩]
        [⟨"x", "x", false, false⟩] false "" := by
  refine (selectables_mem_iff _ _ false "" _).mpr
    ⟨⟨"y", "y", false, false⟩, by decide, ?_, Or.inr (by decide), rfl⟩
  intro s hs
  fin_cases hs
  decide

/-- C10: every candidate produced by `removePickedOption` is rebuilt
from value and label only — its `disable` and `fixed` flags are `false`
whatever the originating pool option carried — and selecting such a
candidate below the bound appends exactly that flag-free entry to the
selection. -/
theorem removePickedOption_drops_flags (opts picked : List MultiSelect.Option)
    (t : String) (o : MultiSelect.Option)
    (h : o ∈ removePickedOption opts picked t) :
    o.disable = false ∧ o.fixed = false ∧
    ∀ (sel : List MultiSelect.Option) (inp : String) (maxSel : Nat),
      sel.length < maxSel →
        (selectCandidate sel inp maxSel o).selected.getLast? = some o := by
  obtain ⟨p, _, _, _, rfl⟩ := (mem_removePickedOption opts picked t o).mp h
  refine ⟨rfl, rfl, ?_⟩
  intro sel inp maxSel hlt
  unfold selectCandidate
  rw [if_neg (Nat.not_le.mpr hlt)]
  exact List.getLast?_concat sel

/-- Witness for C10: a pool option carrying `disable := true` and
`fixed := true` reaches the candidate list with both flags dropped, and
selecting it appends the flag-free entry. -/
theorem removePickedOption_drops_flags_w :
    removePickedOption [⟨"y", "y", true, true⟩] [] ""
        = [⟨"y", "y", false, false⟩] ∧
    (selectCandidate [] "q" 5 ⟨"y", "y", false, false⟩).selected.getLast?
        = some ⟨"y", "y", false, false⟩ := by
  have h := removePickedOption_drops_flags [⟨"y", "y", true, true⟩] [] ""
    ⟨"y", "y", false, false⟩ (by decide)
  exact ⟨by decide, h.2.2 [] "q" 5 (by decide)⟩

/-- C8: for a non-hidden key whose node unwraps to an array, a primitive
or enum element type makes the walker emit exactly one leaf `FormField`
whose field type is the multi-select widget and whose creatable flag is
the negation of the element-is-enum test, while any other element type
makes it emit the repeatable `AutoFormArray` composite. -/
theorem array_key_emits_multiselect (fc : List (String × FieldConfigItem))
    (dep : DependencyResult) (n : String) (it elem : SchemaNode)
    (hh : dep.isHidden = false)
    (he : unwrap (handleIfZodNumber it) = SchemaNode.zArray elem) :
    ((isPrimitiveNode elem || isEnumNode elem) = true →
      Option.map descIsFormField (processKey fc dep n it).emitted = some true ∧
      Option.map descFieldType (processKey fc dep n it).emitted
        = some (some "selectmultiinput") ∧
      Option.map descCreatable (processKey fc dep n it).emitted
        = some (some (!isEnumNode elem))) ∧
    ((isPrimitiveNode elem || isEnumNode elem) = false →
      (processKey fc dep n it).emitted
        = some (FieldDescriptor.arraySubform n (handleIfZodNumber it))) := by
  have hbt : getBaseType (handleIfZodNumber it) = "ZodArray" := by
    unfold getBaseType
    rw [he]
    rfl
  have hr : isZodPrimitiveArray (handleIfZodNumber it)
      = ⟨isPrimitiveNode elem, isEnumNode elem, elem⟩ := by
    unfold isZodPrimitiveArray
    rw [he]
  constructor
  · intro hpe
    simp [processKey, hh, hbt, hr, hpe, emitFormField, descIsFormField,
      descFieldType, descCreatable]
  · intro hpe
    simp [processKey, hh, hbt, hr, hpe]

/-- Witness for C8: a key of type default-wrapped array of strings
becomes one `FormField` with the `selectmultiinput` widget and
`creatable := true`, and a key of type array of enums gets
`creatable := false`. -/
theorem array_key_emits_multiselect_w :
    Option.map descFieldType
        (processKey [] ⟨false, false, false, none⟩ "tags"
          (SchemaNode.zDefault (SchemaNode.zArray SchemaNode.zString))).emitted
      = some (some "selectmultiinput") ∧
    Option.map descCreatable
        (processKey [] ⟨false, false, false, none⟩ "tags"
          (SchemaNode.zDefault (SchemaNode.zArray SchemaNode.zString))).emitted
      = some (some true) ∧
    Option.map descCreatable
        (processKey [] ⟨false, false, false, none⟩ "kinds"
          (SchemaNode.zArray (SchemaNode.zEnum ["a", "b"]))).emitted
      = some (some false) := by
  have h1 := (array_key_emits_multiselect [] ⟨false, false, false, none⟩ "tags"
    (SchemaNode.zDefault (SchemaNode.zArray SchemaNode.zString)) SchemaNode.zString
    rfl rfl).1 (by decide)
  have h2 := (array_key_emits_multiselect [] ⟨false, false, false, none⟩ "kinds"
    (SchemaNode.zArray (SchemaNode.zEnum ["a", "b"])) (SchemaNode.zEnum ["a", "b"])
    rfl rfl).1 (by decide)
  exact ⟨h1.2.1, h1.2.2, h2.2.2⟩
